import Mathlib

/-!
Verification development for the text-leech bot (src/bot.py).

Strings are modelled at the code-point level as lists of characters
(`Str := List Char`), matching Python string semantics (indexing, slicing
and `len` count code points).  Document payloads are lists of byte values
(`List Nat`).  Each definition below is a shallow embedding of the
corresponding function or handler branch of `bot.py`; external
collaborators (Telegram transport, HTTP fetch, yt-dlp) enter through an
explicit oracle recording their outcomes.
-/

abbrev Str := List Char

/-- Convert a Lean string literal to the `Str` code-point model. -/
def strOf (s : String) : Str := s.toList

/-- ASCII whitespace stripped by Python `str.strip()` (space, tab, newline,
carriage return, vertical tab, form feed; rarer Unicode space classes are
not exercised by this code path). -/
def isPyWs (c : Char) : Bool :=
  c = ' ' || c = '\t' || c = '\n' || c = '\r' || c.toNat = 0x0B || c.toNat = 0x0C

/-- Python `str.strip()`: drop leading and trailing whitespace. -/
def pyStrip (s : Str) : Str :=
  ((s.dropWhile isPyWs).reverse.dropWhile isPyWs).reverse

/-- Line-break characters recognised by Python `str.splitlines()`
(the ASCII ones plus NEL and the Unicode line/paragraph separators). -/
def isLineBreak (c : Char) : Bool :=
  c = '\n' || c = '\r' || c.toNat = 0x0B || c.toNat = 0x0C ||
  c.toNat = 0x1C || c.toNat = 0x1D || c.toNat = 0x1E || c.toNat = 0x85 ||
  c.toNat = 0x2028 || c.toNat = 0x2029

/-- Python `str.splitlines()`: split at line breaks, treating CRLF as a
single break and producing no final empty line for a trailing break. -/
def splitlines : Str → List Str
  | [] => []
  | '\r' :: '\n' :: rest => [] :: splitlines rest
  | c :: rest =>
    if isLineBreak c then
      [] :: splitlines rest
    else
      match splitlines rest with
      | [] => [[c]]
      | l :: ls => (c :: l) :: ls

/-- Python substring containment (`needle in hay`). -/
def containsStr (needle : Str) : Str → Bool
  | [] => needle.isEmpty
  | c :: rest => needle.isPrefixOf (c :: rest) || containsStr needle rest

/-- ASCII lower-casing, the case relevant to URL text
(Python `str.lower()` restricted to ASCII letters). -/
def lowerChar (c : Char) : Char :=
  if 65 ≤ c.toNat ∧ c.toNat ≤ 90 then Char.ofNat (c.toNat + 32) else c

/-- Python `url.lower()` over the code-point model. -/
def toLowerStr (s : Str) : Str := s.map lowerChar

/-- bot.py `is_pdf_url`: the lower-cased URL text ends with ".pdf"
or contains "application/pdf" anywhere. -/
def is_pdf_url (url : Str) : Bool :=
  let lower := toLowerStr url
  (strOf ".pdf").isSuffixOf lower || containsStr (strOf "application/pdf") lower

/-- The line filter of bot.py `parse_urls_from_text`: a stripped line is
kept when it is non-empty and starts with "http://" or "https://". -/
def line_ok (l : Str) : Bool :=
  !l.isEmpty && ((strOf "http://").isPrefixOf l || (strOf "https://").isPrefixOf l)

/-- bot.py `parse_urls_from_text`: strip each line of the text and keep
the lines that start with an http(s) scheme, in document order. -/
def parse_urls_from_text (text : Str) : List Str :=
  let lines := (splitlines text).map pyStrip
  lines.filter line_ok

/-- bot.py `handle_text` ASK_BATCH branch: `text.replace('/', '_')[:64]`. -/
def slashToUnderscore (c : Char) : Char := if c = '/' then '_' else c

/-- Sanitize a batch label: replace every '/' by '_' and keep the first
64 code points. -/
def sanitize_batch (t : Str) : Str :=
  (t.map slashToUnderscore).take 64

/-- Decimal digit test for Python `int()` parsing. -/
def isAsciiDigit (c : Char) : Bool := '0' ≤ c && c ≤ '9'

/-- Numeric value of a digit string. -/
def digitsToNat (s : Str) : Nat :=
  s.foldl (fun a c => a * 10 + (c.toNat - '0'.toNat)) 0

/-- Python `int(text)` on already-stripped text: optional single sign
followed by one or more ASCII digits; anything else raises (None here).
(Underscore digit grouping and non-ASCII digits are not exercised.) -/
def parsePyInt (s : Str) : Option Int :=
  match s with
  | '-' :: rest =>
    if !rest.isEmpty && rest.all isAsciiDigit then some (-(digitsToNat rest : Int)) else none
  | '+' :: rest =>
    if !rest.isEmpty && rest.all isAsciiDigit then some ((digitsToNat rest : Int)) else none
  | _ =>
    if !s.isEmpty && s.all isAsciiDigit then some ((digitsToNat s : Int)) else none

/-- Decimal rendering of a natural, as Python `str`. -/
def natStr (n : Nat) : Str := (toString n).toList

/-- Decimal rendering of an integer, as Python `str`. -/
def intStr (i : Int) : Str := (toString i).toList

/-- UTF-8 continuation byte (80..BF). -/
def isCont (b : Nat) : Bool := 0x80 ≤ b && b ≤ 0xBF

/-- Valid first continuation byte for a three-byte lead (excludes overlong
encodings and surrogates, as CPython's strict decoder does). -/
def cont3ok (b c1 : Nat) : Bool :=
  (b = 0xE0 && 0xA0 ≤ c1 && c1 ≤ 0xBF) ||
  (0xE1 ≤ b && b ≤ 0xEC && isCont c1) ||
  (b = 0xED && 0x80 ≤ c1 && c1 ≤ 0x9F) ||
  (0xEE ≤ b && b ≤ 0xEF && isCont c1)

/-- Valid first continuation byte for a four-byte lead (excludes overlong
encodings and code points above U+10FFFF). -/
def cont4ok (b c1 : Nat) : Bool :=
  (b = 0xF0 && 0x90 ≤ c1 && c1 ≤ 0xBF) ||
  (0xF1 ≤ b && b ≤ 0xF3 && isCont c1) ||
  (b = 0xF4 && 0x80 ≤ c1 && c1 ≤ 0x8F)

/-- Code point of a two-byte sequence. -/
def chr2 (b c1 : Nat) : Char := Char.ofNat ((b - 0xC0) * 0x40 + (c1 - 0x80))

/-- Code point of a three-byte sequence. -/
def chr3 (b c1 c2 : Nat) : Char :=
  Char.ofNat ((b - 0xE0) * 0x1000 + (c1 - 0x80) * 0x40 + (c2 - 0x80))

/-- Code point of a four-byte sequence. -/
def chr4 (b c1 c2 c3 : Nat) : Char :=
  Char.ofNat ((b - 0xF0) * 0x40000 + (c1 - 0x80) * 0x1000 + (c2 - 0x80) * 0x40 + (c3 - 0x80))

/-- One step of UTF-8 decoding: either the input is exhausted, or one code
point is decoded (`ok c k`: `k + 1` bytes consumed), or the leading bytes
form no valid sequence (`err k`: the maximal subpart of `k + 1` bytes is
consumed, as CPython's error handlers skip it). -/
inductive Utf8Step where
  | done
  | ok (c : Char) (k : Nat)
  | err (k : Nat)
deriving DecidableEq, Repr

/-- Decode one UTF-8 sequence from the front of a byte list. -/
def utf8Step : List Nat → Utf8Step
  | [] => .done
  | b :: rest =>
    if b < 0x80 then .ok (Char.ofNat b) 0
    else if b < 0xC2 then .err 0
    else if b ≤ 0xDF then
      match rest with
      | c1 :: _ => if isCont c1 then .ok (chr2 b c1) 1 else .err 0
      | [] => .err 0
    else if b ≤ 0xEF then
      match rest with
      | c1 :: c2 :: _ =>
        if cont3ok b c1 then
          if isCont c2 then .ok (chr3 b c1 c2) 2 else .err 1
        else .err 0
      | [c1] => if cont3ok b c1 then .err 1 else .err 0
      | [] => .err 0
    else if b ≤ 0xF4 then
      match rest with
      | c1 :: c2 :: c3 :: _ =>
        if cont4ok b c1 then
          if isCont c2 then
            if isCont c3 then .ok (chr4 b c1 c2 c3) 3 else .err 2
          else .err 1
        else .err 0
      | [c1, c2] =>
        if cont4ok b c1 then (if isCont c2 then .err 2 else .err 1) else .err 0
      | [c1] => if cont4ok b c1 then .err 1 else .err 0
      | [] => .err 0
    else .err 0

/-- Fuelled driver for `bytes.decode('utf-8', errors='ignore')`: decoded
code points are kept, ill-formed subparts are dropped.  Each step consumes
at least one byte, so fuel equal to the input length always suffices. -/
def decodeIgnoreF : Nat → List Nat → List Char
  | 0, _ => []
  | fuel + 1, bs =>
    match utf8Step bs with
    | .done => []
    | .ok c k => c :: decodeIgnoreF fuel (bs.drop (k + 1))
    | .err k => decodeIgnoreF fuel (bs.drop (k + 1))

/-- bot.py `downloaded.decode('utf-8', errors='ignore')` over the byte model. -/
def decodeIgnore (bs : List Nat) : List Char := decodeIgnoreF bs.length bs

/-- Fuelled driver for strict UTF-8 decoding (`bytes.decode('utf-8')`):
any ill-formed sequence fails the whole decode. -/
def decodeStrictF : Nat → List Nat → Option (List Char)
  | 0, bs => if bs.isEmpty then some [] else none
  | fuel + 1, bs =>
    match utf8Step bs with
    | .done => some []
    | .ok c k => (decodeStrictF fuel (bs.drop (k + 1))).map (fun cs => c :: cs)
    | .err _ => none

/-- Strict UTF-8 decoding of a byte list. -/
def decodeStrict (bs : List Nat) : Option (List Char) := decodeStrictF bs.length bs

/-- The conversation stages of the bot.py session dictionary. -/
inductive Stage where
  | await_file
  | choosing_link
  | ask_batch
  | ask_quality
  | ask_token
  | downloading
deriving DecidableEq, Repr

/-- One user's session: the ad-hoc keys of the Python state dictionary,
optional until their stage sets them. -/
structure Session where
  stage : Stage
  urls : List Str := []
  pdfs : List Str := []
  videos : List Str := []
  chosen_index : Option Int := none
  chosen_url : Option Str := none
  batch : Option Str := none
  quality : Option Str := none
  token : Option Str := none
deriving DecidableEq, Repr

/-- Outcomes of the external collaborators (HTTP fetch, yt-dlp, Telegram
upload) for one pass through the ASK_TOKEN branch. -/
structure Oracle where
  tmpdir : Str
  http_ok : Bool
  http_err : Str
  ydl_error : Option Str
  ydl_reported : Option Str
  tmp_files : List (Str × Nat)
  upload_ok : Bool
  upload_err : Str
deriving DecidableEq, Repr

/-- Outcome of `handle_download_and_prepare`: a local file path, or the
text of the exception it raised. -/
inductive Fetched where
  | ok (path : Str)
  | failed (e : Str)
deriving DecidableEq, Repr

/-- Observable trace of one `handle_download_and_prepare` run. -/
structure FetchTrace where
  result : Fetched
  logs : List Str
  files : List Str
  fmt_used : Option Str
  direct_get : Option Str
deriving DecidableEq, Repr

/-- Observable outcome of handling one inbound event: the session store
after the event (single user), the replies sent, the log lines written,
the sessions handed to the download orchestrator, the uploads attempted
(path, caption) and the local files existing afterwards. -/
structure Result where
  store : Option Session
  msgs : List Str
  logs : List Str
  invoked : List Session
  uploads : List (Str × Str)
  files : List Str
deriving DecidableEq, Repr

/-- The fixed resolution-service base address of bot.py. -/
def api_base : Str := strOf "https://anonymouspwplayer-25261acd1521.herokuapp.com/pw"

/-- bot.py: `f"{api_base}?url={chosen_url}&token={token}"`. -/
def final_url (chosen_url token : Str) : Str :=
  api_base ++ strOf "?url=" ++ chosen_url ++ strOf "&token=" ++ token

/-- bot.py: the yt-dlp format selector chosen from the session quality. -/
def ydl_format (quality : Str) : Str :=
  if quality = strOf "720" then strOf "bestvideo[height<=720]+bestaudio/best[height<=720]"
  else strOf "bestvideo[height<=480]+bestaudio/best[height<=480]"

/-- bot.py fallback when yt-dlp reports no file path: list the working
directory and pick the largest file (stable: first of maximal size). -/
def select_largest (fs : List (Str × Nat)) : Option Str :=
  (fs.foldl
    (fun acc p =>
      match acc with
      | none => some p
      | some q => if p.2 > q.2 then some p else some q)
    none).map Prod.fst

/-- Rendering of the chosen index in the PDF file name and the caption
(`str` of the Python value; a missing key cannot occur on reachable runs). -/
def indexStr (i : Option Int) : Str :=
  match i with
  | some n => intStr n
  | none => strOf "None"

/-- bot.py `handle_download_and_prepare`: logs the resolution URL (with
the token), then either stream-fetches a PDF URL directly into
`<batch>_<index>.pdf`, or hands the resolution URL to yt-dlp with the
quality-derived format selector and resolves the output path from the
reported download or the largest file in the working directory. -/
def handle_download_and_prepare (s : Session) (o : Oracle) : FetchTrace :=
  let chosen_url := s.chosen_url.getD []
  let token := s.token.getD []
  let quality := s.quality.getD []
  let batch := s.batch.getD []
  let fu := final_url chosen_url token
  let logs := [strOf "Final URL: " ++ fu]
  if is_pdf_url chosen_url then
    let out_path := o.tmpdir ++ strOf "/" ++ batch ++ strOf "_" ++ indexStr s.chosen_index ++ strOf ".pdf"
    if o.http_ok then
      ⟨.ok out_path, logs, [out_path], none, some chosen_url⟩
    else
      ⟨.failed o.http_err, logs, [], none, some chosen_url⟩
  else
    let fmt := ydl_format quality
    let files := o.tmp_files.map Prod.fst
    match o.ydl_error with
    | some e => ⟨.failed e, logs, files, some fmt, none⟩
    | none =>
      match o.ydl_reported with
      | some p => ⟨.ok p, logs, files, some fmt, none⟩
      | none =>
        match select_largest o.tmp_files with
        | some p => ⟨.ok p, logs, files, some fmt, none⟩
        | none => ⟨.failed (strOf "Could not determine downloaded file path."), logs, files, some fmt, none⟩

def msg_start_help : Str :=
  strOf "Send /pw to begin: send a text file (one URL per line). Video URLs and PDF links supported."

def msg_pw : Str :=
  strOf "Please send the text file (as a Telegram document). It should contain one URL per line (videos or PDFs)."

def msg_not_expecting : Str :=
  strOf "I wasn\x27t expecting a file right now. Send /pw to start a new session."

def msg_large : Str := strOf "Received file. (Large files may be slow to download.)"

def msg_parsing : Str := strOf "Received file. Parsing..."

def msg_no_urls : Str :=
  strOf "No valid URLs found in the file. Make sure one URL per line and they start with http(s)."

def msg_send_pw : Str := strOf "Send /pw to start."

def msg_bad_number : Str := strOf "Please send a valid number corresponding to the URL index."

def msg_out_of_range : Str := strOf "Index out of range. Pick a number from the list."

def msg_selected (idx : Int) (chosen_url : Str) : Str :=
  strOf "Selected URL #" ++ intStr idx ++ strOf ":\n" ++ chosen_url ++
  strOf "\n\nSend the batch/name you want to use (short text)."

def msg_quality_prompt : Str :=
  strOf "Choose quality: send \x27480\x27 or \x27720\x27 (only these two)."

def msg_bad_quality : Str := strOf "Please reply with exactly \x27480\x27 or \x27720\x27."

def msg_token_prompt : Str :=
  strOf "Send the pw token string (the token used in the API). Keep it private."

def msg_starting : Str :=
  strOf "Starting download... I will upload once completed. This may take long depending on file size."

def msg_fallthrough : Str :=
  strOf "I didn\x27t understand. Follow the flow: /pw -> send file -> pick index."

/-- One numbered line of the URL summary. -/
def url_line (i : Nat) (u : Str) : Str :=
  natStr i ++ strOf ". [" ++ (if is_pdf_url u then strOf "PDF" else strOf "VIDEO") ++
  strOf "] " ++ u.take 80 ++ strOf "\n"

/-- bot.py `handle_document` summary message for the parsed URL list. -/
def summary_msg (urls : List Str) : Str :=
  strOf "Found " ++ natStr urls.length ++ strOf " URLs — " ++
  natStr (urls.filter (fun u => !is_pdf_url u)).length ++ strOf " videos, " ++
  natStr (urls.filter (fun u => is_pdf_url u)).length ++ strOf " PDFs.\n\n" ++
  strOf "List of URLs (index : type : short URL):\n" ++
  (urls.enum.map (fun p => url_line (p.1 + 1) p.2)).foldl (· ++ ·) [] ++
  strOf "\nReply with the number of the link you want to download (e.g. 1)."

/-- bot.py `handle_document`: acknowledge (wording depends on the declared
size, any failure reading it falling back to the plain acknowledgment),
decode the bytes with errors ignored, scan for URLs, and either destroy
the session (no URLs) or store the classified list and advance to
CHOOSING_LINK. -/
def handle_document (store : Option Session) (file_size : Option Nat) (content : List Nat) :
    Option Session × List Str :=
  match store with
  | some state =>
    if state.stage = .await_file then
      let ack := match file_size with
        | some n => if n > 10 * 1024 * 1024 then msg_large else msg_parsing
        | none => msg_parsing
      let text := decodeIgnore content
      let urls := parse_urls_from_text text
      if urls = [] then
        (none, [ack, msg_no_urls])
      else
        let pdfs := urls.filter (fun u => is_pdf_url u)
        let videos := urls.filter (fun u => !is_pdf_url u)
        (some { state with stage := .choosing_link, urls := urls, pdfs := pdfs, videos := videos },
         [ack, summary_msg urls])
    else
      (some state, [msg_not_expecting])
  | none => (none, [msg_not_expecting])

/-- bot.py `handle_text`: the text-event dispatch of the conversation
state machine, including the synchronous download, upload, cleanup and
session teardown of the ASK_TOKEN branch. -/
def handle_text (store : Option Session) (raw : Str) (o : Oracle) : Result :=
  let text := pyStrip raw
  match store with
  | none => ⟨none, [msg_send_pw], [], [], [], []⟩
  | some state =>
    match state.stage with
    | .choosing_link =>
      match parsePyInt text with
      | none => ⟨some state, [msg_bad_number], [], [], [], []⟩
      | some idx =>
        if idx < 1 ∨ idx > (state.urls.length : Int) then
          ⟨some state, [msg_out_of_range], [], [], [], []⟩
        else
          let chosen_url := ((state.urls.get? (idx - 1).toNat).getD [])
          ⟨some { state with chosen_index := some idx, chosen_url := some chosen_url, stage := .ask_batch },
           [msg_selected idx chosen_url], [], [], [], []⟩
    | .ask_batch =>
      ⟨some { state with batch := some (sanitize_batch text), stage := .ask_quality },
       [msg_quality_prompt], [], [], [], []⟩
    | .ask_quality =>
      if text = strOf "480" ∨ text = strOf "720" then
        ⟨some { state with quality := some text, stage := .ask_token },
         [msg_token_prompt], [], [], [], []⟩
      else
        ⟨some state, [msg_bad_quality], [], [], [], []⟩
    | .ask_token =>
      let token := pyStrip text
      let s1 := { state with token := some token, stage := .downloading }
      let tr := handle_download_and_prepare s1 o
      match tr.result with
      | .failed e =>
        ⟨none, [msg_starting, strOf "Download failed: " ++ e], tr.logs, [s1], [], tr.files⟩
      | .ok path =>
        let caption := strOf "Batch: " ++ s1.batch.getD [] ++ strOf " — Source index: " ++
          indexStr s1.chosen_index
        if o.upload_ok then
          ⟨none, [msg_starting], tr.logs, [s1], [(path, caption)], tr.files.erase path⟩
        else
          ⟨none, [msg_starting, strOf "Upload failed: " ++ o.upload_err], tr.logs, [s1],
           [(path, caption)], tr.files.erase path⟩
    | .await_file | .downloading =>
      ⟨some state, [msg_fallthrough], [], [], [], []⟩

/-- Inbound events dispatched by the transport (commands are routed to
their command handlers, documents to `handle_document`, other messages to
`handle_text`). -/
inductive Event where
  | cmdStart
  | cmdPw
  | document (file_size : Option Nat) (content : List Nat)
  | text (raw : Str)

/-- One dispatch of an inbound event for the user. -/
def step (store : Option Session) (e : Event) (o : Oracle) : Result :=
  match e with
  | .cmdStart => ⟨store, [msg_start_help], [], [], [], []⟩
  | .cmdPw => ⟨some { stage := .await_file }, [msg_pw], [], [], [], []⟩
  | .document sz content =>
    let r := handle_document store sz content
    ⟨r.1, r.2, [], [], [], []⟩
  | .text raw => handle_text store raw o

/-- Session stores reachable from the empty store by any event sequence. -/
inductive Reachable : Option Session → Prop where
  | init : Reachable none
  | next (st : Option Session) (e : Event) (o : Oracle) :
      Reachable st → Reachable (step st e o).store

/-- What follows the first "://" of a URL, if any. -/
def afterSchemeSep : Str → Option Str
  | ':' :: '/' :: '/' :: rest => some rest
  | _ :: rest => afterSchemeSep rest
  | [] => none

/-- Modelled from the spec: the URL's path component — what follows the
authority (host) up to the query or fragment — used by the spec's
classification rule "its path ends in `.pdf`". -/
def url_path (u : Str) : Str :=
  match afterSchemeSep u with
  | none => u.takeWhile (fun c => c != '?' && c != '#')
  | some rest => (rest.dropWhile (fun c => c != '/')).takeWhile (fun c => c != '?' && c != '#')

/-- Modelled from the spec: classification by "path ends in `.pdf`
(case-insensitive) or contains the substring `application/pdf` anywhere in
its text". -/
def spec_is_pdf_url (u : Str) : Bool :=
  (strOf ".pdf").isSuffixOf (toLowerStr (url_path u)) || containsStr (strOf "application/pdf") u

/-- Python-style whitespace split (as `str.split()` with no argument):
maximal runs of non-whitespace characters. -/
def splitWs : Str → List Str
  | [] => []
  | c :: rest =>
    if isPyWs c then splitWs rest
    else
      match splitWs rest with
      | [] => [[c]]
      | l :: ls =>
        match rest with
        | [] => [[c]]
        | d :: _ => if isPyWs d then [c] :: l :: ls else (c :: l) :: ls

/-- Modelled from the spec: "those tokens" of a text — the
whitespace-delimited tokens that begin with `http://` or `https://`, in
document order. -/
def spec_url_tokens (t : Str) : List Str :=
  (splitWs t).filter (fun w => (strOf "http://").isPrefixOf w || (strOf "https://").isPrefixOf w)

/-- Modelled from the spec: "extract text (UTF-8 decode, falling back to a
lossy single-byte decode on failure)" — strict UTF-8 first, and a
byte-to-code-point (latin-1 style) decode when strict decoding fails. -/
def spec_extract_text (bs : List Nat) : Str :=
  match decodeStrict bs with
  | some cs => cs
  | none => bs.map Char.ofNat

/-- An available stream, as the media-download capability sees it:
vertical resolution, which of video/audio it carries, and a bitrate used
to rank candidates. -/
structure MediaFormat where
  height : Nat
  hasVideo : Bool
  hasAudio : Bool
  tbr : Nat
deriving DecidableEq, Repr

/-- Height cap filter of a `[height<=H]` selector clause. -/
def capOk (cap : Option Nat) (f : MediaFormat) : Bool :=
  match cap with
  | none => true
  | some h => f.height ≤ h

/-- Best candidate among those passing a filter (highest bitrate, first on
ties). -/
def pickBest (p : MediaFormat → Bool) (fs : List MediaFormat) : Option MediaFormat :=
  (fs.filter p).foldl
    (fun acc f =>
      match acc with
      | none => some f
      | some g => if f.tbr > g.tbr then some f else some g)
    none

/-- Abstract syntax of the yt-dlp format selectors this code emits. -/
inductive FmtSel where
  | best (cap : Option Nat)
  | bestvideo (cap : Option Nat)
  | bestaudio
  | merge (a b : FmtSel)
  | alt (a b : FmtSel)

/-- Modelled from the spec: the media-download capability's format
selection.  `best` picks the best combined (video+audio) stream, caps
filter by height, `a+b` merges the two picks (needs both), `a/b` tries
`a` then falls back to `b`. -/
def selectF : FmtSel → List MediaFormat → Option (List MediaFormat)
  | .best c, fs =>
    (pickBest (fun f => f.hasVideo && f.hasAudio && capOk c f) fs).map (fun f => [f])
  | .bestvideo c, fs =>
    (pickBest (fun f => f.hasVideo && !f.hasAudio && capOk c f) fs).map (fun f => [f])
  | .bestaudio, fs =>
    (pickBest (fun f => f.hasAudio && !f.hasVideo) fs).map (fun f => [f])
  | .merge a b, fs =>
    match selectF a fs, selectF b fs with
    | some x, some y => some (x ++ y)
    | _, _ => none
  | .alt a b, fs =>
    match selectF a fs with
    | some x => some x
    | none => selectF b fs

/-- Concrete text of a format selector. -/
def renderCap : Option Nat → Str
  | none => []
  | some h => strOf "[height<=" ++ natStr h ++ strOf "]"

/-- Render a format selector as the string handed to yt-dlp. -/
def renderSel : FmtSel → Str
  | .best c => strOf "best" ++ renderCap c
  | .bestvideo c => strOf "bestvideo" ++ renderCap c
  | .bestaudio => strOf "bestaudio"
  | .merge a b => renderSel a ++ strOf "+" ++ renderSel b
  | .alt a b => renderSel a ++ strOf "/" ++ renderSel b

/-- The selector bot.py emits for a height cap: prefer the best capped
video-only stream merged with the best audio stream, else the best capped
combined stream. -/
def codeSel (h : Nat) : FmtSel :=
  .alt (.merge (.bestvideo (some h)) .bestaudio) (.best (some h))

/-- Modelled from the spec: "prefer a combined video+audio stream capped
at the requested vertical resolution, falling back to best-available if no
stream matches the cap". -/
def specSel (h : Nat) : FmtSel :=
  .alt (.best (some h)) (.best none)

/-- A concrete oracle for concrete runs: every external collaborator
succeeds, yt-dlp reports its output path. -/
def demo_oracle : Oracle :=
  { tmpdir := strOf "/tmp/tlb_1", http_ok := true, http_err := [],
    ydl_error := none, ydl_reported := some (strOf "/tmp/tlb_1/math_abc.mp4"),
    tmp_files := [(strOf "/tmp/tlb_1/math_abc.mp4", 1000)],
    upload_ok := true, upload_err := [] }

/-- A concrete uploaded document: two URLs, one per line. -/
def demo_bytes : List Nat :=
  (strOf "https://x.com/a.pdf\nhttps://y.com/v.mp4").map Char.toNat

/-- The session produced by ingesting `demo_bytes` into a fresh session. -/
def demo_ingested : Session :=
  { stage := .choosing_link,
    urls := [strOf "https://x.com/a.pdf", strOf "https://y.com/v.mp4"],
    pdfs := [strOf "https://x.com/a.pdf"],
    videos := [strOf "https://y.com/v.mp4"] }

/-- A concrete session that has reached ASK_TOKEN on the media URL. -/
def demo_media_session : Session :=
  { demo_ingested with
    stage := .ask_token,
    chosen_index := some 2, chosen_url := some (strOf "https://y.com/v.mp4"),
    batch := some (strOf "math"), quality := some (strOf "480") }

/-- The log line bot.py writes for `demo_media_session` with token
"tok123". -/
def demo_final_url_log : Str :=
  strOf "Final URL: https://anonymouspwplayer-25261acd1521.herokuapp.com/pw?url=https://y.com/v.mp4&token=tok123"

/-- The single available stream in the format-selection counterexample:
a combined 1080p video+audio stream. -/
def demo_stream : MediaFormat := { height := 1080, hasVideo := true, hasAudio := true, tbr := 100 }

/-- The session invariant behind C7: a fresh (AWAIT_FILE) session has no
selection yet, and whenever a URL has been chosen the stored index is a
valid 1-based index into the stored URL list. -/
def session_inv (s : Session) : Prop :=
  (s.stage = .await_file → s.chosen_url = none ∧ s.chosen_index = none) ∧
  (∀ u, s.chosen_url = some u →
    ∃ i, s.chosen_index = some i ∧ 1 ≤ i ∧ i ≤ (s.urls.length : Int))

/-- The invariant lifted to the store. -/
def store_inv (st : Option Session) : Prop :=
  ∀ s, st = some s → session_inv s

/-- The session after choosing URL 1 of the ingested document. -/
def demo_chosen_session : Session :=
  { demo_ingested with
    stage := .ask_batch,
    chosen_index := some 1, chosen_url := some (strOf "https://x.com/a.pdf") }

example : pyStrip (strOf "  a b ") = strOf "a b" := by decide
example : decodeIgnore [0x41, 0xC3, 0xA9, 0x42] = strOf "AéB" := by decide
example : decodeIgnore [0x41, 0xFF, 0x42] = strOf "AB" := by decide
example : decodeStrict [0x41, 0xFF, 0x42] = none := by decide
example : decodeStrict [0xE2, 0x82, 0xAC] = some (strOf "€") := by decide
example : splitlines (strOf "a\r\nb\nc") = [strOf "a", strOf "b", strOf "c"] := by decide
example : parse_urls_from_text (strOf " https://x.com/a.pdf \nfoo\nhttp://y.com/v.mp4") =
    [strOf "https://x.com/a.pdf", strOf "http://y.com/v.mp4"] := by decide
example : is_pdf_url (strOf "https://x.com/A.PDF") = true := by decide
example : is_pdf_url (strOf "https://x.com/a.pdf?x=1") = false := by decide
example : sanitize_batch (strOf "a/b/c") = strOf "a_b_c" := by decide
example : parsePyInt (strOf "-12") = some (-12) := by decide
example : parsePyInt (strOf "1a") = none := by decide
example : natStr 720 = strOf "720" := by decide

theorem char_toNat_ofNat (n : Nat) (h : n < 0xD800) : (Char.ofNat n).toNat = n := by
  have hv : n.isValidChar := Or.inl h
  rw [Char.ofNat, dif_pos hv]
  simp [Char.ofNatAux, Char.toNat, UInt32.toNat]

theorem lowerChar_idem (c : Char) : lowerChar (lowerChar c) = lowerChar c := by
  unfold lowerChar
  split_ifs with h1 h2
  · exfalso
    rw [char_toNat_ofNat (c.toNat + 32) (by omega)] at h2
    omega
  · rfl
  · rfl

theorem toLowerStr_idem (s : Str) : toLowerStr (toLowerStr s) = toLowerStr s := by
  induction s with
  | nil => rfl
  | cons c cs ih =>
    simp only [toLowerStr, List.map_cons] at *
    rw [lowerChar_idem]
    exact congrArg _ ih

theorem slashToUnderscore_ne (c : Char) : slashToUnderscore c ≠ '/' := by
  unfold slashToUnderscore
  split_ifs with h
  · decide
  · exact h

theorem slashToUnderscore_idem (c : Char) :
    slashToUnderscore (slashToUnderscore c) = slashToUnderscore c := by
  by_cases h : c = '/'
  · subst h; decide
  · simp [slashToUnderscore, h]

theorem map_slash_idem (l : Str) :
    (l.map slashToUnderscore).map slashToUnderscore = l.map slashToUnderscore := by
  induction l with
  | nil => rfl
  | cons c cs ih => simp only [List.map_cons, slashToUnderscore_idem, ih]

theorem utf8Step_nil : utf8Step [] = .done := rfl

theorem utf8Step_ne_done_ne_nil {bs : List Nat} (h : utf8Step bs ≠ .done) : bs ≠ [] := by
  intro hbs
  subst hbs
  exact h utf8Step_nil

theorem decodeF_agree (fuel : Nat) :
    ∀ (bs : List Nat) (cs : List Char), bs.length ≤ fuel →
      decodeStrictF fuel bs = some cs → decodeIgnoreF fuel bs = cs := by
  induction fuel with
  | zero =>
    intro bs cs hl hs
    have hbs : bs = [] := List.eq_nil_of_length_eq_zero (Nat.le_zero.mp hl)
    subst hbs
    simp only [decodeStrictF, List.isEmpty_nil, if_pos, Option.some.injEq] at hs
    simp only [decodeIgnoreF, ← hs]
  | succ n ih =>
    intro bs cs hl hs
    cases hstep : utf8Step bs with
    | done =>
      simp only [decodeStrictF, hstep, Option.some.injEq] at hs
      simp only [decodeIgnoreF, hstep, ← hs]
    | ok c k =>
      simp only [decodeStrictF, hstep] at hs
      have hlen : (bs.drop (k + 1)).length ≤ n := by
        rw [List.length_drop]
        omega
      cases hrec : decodeStrictF n (bs.drop (k + 1)) with
      | none => rw [hrec] at hs; simp at hs
      | some cs' =>
        rw [hrec] at hs
        simp only [Option.map_some', Option.some.injEq] at hs
        simp only [decodeIgnoreF, hstep]
        rw [ih _ _ hlen hrec]
        exact hs
    | err k =>
      simp only [decodeStrictF, hstep] at hs
      exact Option.noConfusion hs

theorem dropWhile_cons_false {α : Type} (p : α → Bool) :
    ∀ {l : List α} {x : α} {r : List α}, l.dropWhile p = x :: r → p x = false := by
  intro l
  induction l with
  | nil => intro x r h; exact List.noConfusion h
  | cons a t ih =>
    intro x r h
    rw [List.dropWhile_cons] at h
    by_cases hp : p a = true
    · rw [if_pos hp] at h
      exact ih h
    · rw [if_neg hp] at h
      injection h with h1 h2
      subst h1
      exact Bool.not_eq_true _ |>.mp hp

theorem dropWhile_idem {α : Type} (p : α → Bool) (l : List α) :
    (l.dropWhile p).dropWhile p = l.dropWhile p := by
  cases h : l.dropWhile p with
  | nil => rfl
  | cons x r => simp [List.dropWhile_cons, dropWhile_cons_false p h]

theorem dropWhile_append_last {α : Type} (p : α → Bool) (x : α) (hx : p x = false) :
    ∀ l : List α, (l ++ [x]).dropWhile p = l.dropWhile p ++ [x] := by
  intro l
  induction l with
  | nil => simp [List.dropWhile_cons, hx]
  | cons a t ih =>
    simp only [List.cons_append, List.dropWhile_cons]
    split_ifs with hp
    · exact ih
    · simp

theorem pyStrip_idem (s : Str) : pyStrip (pyStrip s) = pyStrip s := by
  unfold pyStrip
  cases h : s.dropWhile isPyWs with
  | nil => simp
  | cons x xs =>
    have hx : isPyWs x = false := dropWhile_cons_false _ h
    simp only [h, List.reverse_cons, dropWhile_append_last isPyWs x hx, List.reverse_append,
      List.reverse_reverse, List.reverse_nil, List.nil_append, List.singleton_append,
      List.dropWhile_cons, hx, Bool.false_eq_true, if_false, dropWhile_idem]

theorem pickBest_eq_none {p : MediaFormat → Bool} {fs : List MediaFormat}
    (h : ∀ f ∈ fs, p f = false) : pickBest p fs = none := by
  unfold pickBest
  rw [List.filter_eq_nil_iff.mpr (fun f hf => by rw [h f hf]; exact Bool.false_ne_true)]
  rfl

/-- C3 counterexample: for "https://x.com/a.pdf?x=1" the URL's path
("/a.pdf") ends in ".pdf", so the claim's rule classifies it PDF, but
`is_pdf_url` tests the whole URL text (which ends in "?x=1") and returns
MEDIA. -/
theorem is_pdf_url_path_counterexample :
    spec_is_pdf_url (strOf "https://x.com/a.pdf?x=1") = true ∧
    is_pdf_url (strOf "https://x.com/a.pdf?x=1") = false := by
  constructor
  · decide
  · decide

/-- C3 amended: `is_pdf_url` is a total Boolean classification returning
PDF exactly when the lower-cased *full URL text* (not its path component)
ends in ".pdf" or contains "application/pdf"; the test is insensitive to
ASCII case of the input. -/
theorem is_pdf_url_amended (u : Str) :
    is_pdf_url u =
      ((strOf ".pdf").isSuffixOf (toLowerStr u) ||
        containsStr (strOf "application/pdf") (toLowerStr u)) ∧
    is_pdf_url (toLowerStr u) = is_pdf_url u := by
  refine ⟨rfl, ?_⟩
  unfold is_pdf_url
  rw [toLowerStr_idem]

/-- C6: batch-label sanitization (replace '/' by '_', truncate to 64) is
idempotent, its output never exceeds 64 code points, and its output never
contains the path separator '/'. -/
theorem sanitize_batch_props (t : Str) :
    sanitize_batch (sanitize_batch t) = sanitize_batch t ∧
    (sanitize_batch t).length ≤ 64 ∧
    '/' ∉ sanitize_batch t := by
  refine ⟨?_, ?_, ?_⟩
  · unfold sanitize_batch
    rw [List.map_take, map_slash_idem, List.take_take]
    simp
  · simp only [sanitize_batch, List.length_take]
    exact Nat.min_le_left _ _
  · intro hm
    have h1 : '/' ∈ t.map slashToUnderscore :=
      (List.take_sublist 64 _).mem hm
    obtain ⟨a, _, ha⟩ := List.mem_map.mp h1
    exact slashToUnderscore_ne a ha

/-- C5 counterexample: the selector bot.py passes for quality 480 is
"bestvideo[height<=480]+bestaudio/best[height<=480]"; on a format list
whose only stream is a combined 1080p stream (no stream matches the cap),
it selects nothing, whereas the claim's described selector ("fall back to
best-available if no stream matches the cap") selects that stream. -/
theorem format_selector_counterexample :
    renderSel (codeSel 480) = ydl_format (strOf "480") ∧
    selectF (codeSel 480) [demo_stream] = none ∧
    selectF (specSel 480) [demo_stream] = some [demo_stream] := by
  refine ⟨by decide, by decide, by decide⟩

/-- C5 amended: the selector passed for a media session is
"bestvideo[height<=H]+bestaudio/best[height<=H]" with H = 720 for quality
"720" and H = 480 otherwise — the preferred alternative merges the best
capped video-only stream with the best audio stream, and the fallback is
the best *capped* combined stream; when no stream fits the cap, nothing is
selected (there is no uncapped best-available fallback). -/
theorem format_selector_amended (q : Str) (h : Nat) (fs : List MediaFormat)
    (hall : ∀ f ∈ fs, h < f.height) :
    ydl_format q = renderSel (codeSel (if q = strOf "720" then 720 else 480)) ∧
    selectF (codeSel h) fs = none := by
  constructor
  · by_cases hq : q = strOf "720"
    · rw [if_pos hq]
      unfold ydl_format
      rw [if_pos hq]
      decide
    · rw [if_neg hq]
      unfold ydl_format
      rw [if_neg hq]
      decide
  · have hv : pickBest (fun f => f.hasVideo && !f.hasAudio && capOk (some h) f) fs = none := by
      apply pickBest_eq_none
      intro f hf
      have := hall f hf
      simp only [capOk, Bool.and_eq_false_iff]
      right
      simpa using Nat.not_le.mpr this
    have hb : pickBest (fun f => f.hasVideo && f.hasAudio && capOk (some h) f) fs = none := by
      apply pickBest_eq_none
      intro f hf
      have := hall f hf
      simp only [capOk, Bool.and_eq_false_iff]
      right
      simpa using Nat.not_le.mpr this
    simp only [codeSel, selectF, hv, hb, Option.map_none']

/-- C5 amended, witness at quality "480" on the 1080p-only format list. -/
theorem format_selector_amended_witness :
    ydl_format (strOf "480") =
      renderSel (codeSel (if strOf "480" = strOf "720" then 720 else 480)) ∧
    selectF (codeSel 480) [demo_stream] = none :=
  format_selector_amended (strOf "480") 480 [demo_stream] (by decide)

/-- C9 counterexample: on the bytes [65, 255, 66] the code's decode
(UTF-8 with errors ignored) yields "AB" — the invalid byte is dropped —
while the claim's algorithm (strict UTF-8, falling back to a lossy
single-byte decode on failure) yields "AÿB"; the two disagree. -/
theorem decode_fallback_counterexample :
    decodeIgnore [65, 255, 66] = strOf "AB" ∧
    spec_extract_text [65, 255, 66] = strOf "AÿB" ∧
    decodeIgnore [65, 255, 66] ≠ spec_extract_text [65, 255, 66] := by
  refine ⟨by decide, by decide, by decide⟩

/-- C9 amended: ingestion decodes with UTF-8 errors *ignored* (ill-formed
subparts dropped), not a single-byte fallback; it never aborts, and on
every byte input that strict UTF-8 decoding accepts, the result equals
the strict decode. -/
theorem decode_fallback_amended (bs : List Nat) (cs : List Char)
    (h : decodeStrict bs = some cs) : decodeIgnore bs = cs :=
  decodeF_agree bs.length bs cs le_rfl h

/-- C9 amended, witness on the valid UTF-8 input "Hé". -/
theorem decode_fallback_amended_witness :
    decodeIgnore [0x48, 0xC3, 0xA9] = strOf "Hé" :=
  decode_fallback_amended [0x48, 0xC3, 0xA9] (strOf "Hé") (by decide)

/-- C2 counterexample: the text "foo http://a.com" contains one http
token, which the claim says extraction returns; but the only line does
not *begin* with the token, and `parse_urls_from_text` (which keeps whole
lines beginning with a scheme) returns the empty sequence. -/
theorem parse_urls_counterexample :
    containsStr (strOf "http://") (strOf "foo http://a.com") = true ∧
    spec_url_tokens (strOf "foo http://a.com") = [strOf "http://a.com"] ∧
    parse_urls_from_text (strOf "foo http://a.com") = [] := by
  refine ⟨by decide, by decide, by decide⟩

/-- C2 amended: ingestion returns, in document order, exactly the
whitespace-stripped *lines* of the decoded document that begin with
"http://" or "https://" (each kept as its full line text, not the
embedded tokens), and the stored PDF/video classification splits that
sequence exactly by the suffix/content-type heuristic. -/
theorem parse_urls_amended (s0 : Session) (sz : Option Nat) (content : List Nat)
    (s' : Session) (h0 : s0.stage = .await_file)
    (h : (handle_document (some s0) sz content).1 = some s') :
    s'.urls = ((splitlines (decodeIgnore content)).map pyStrip).filter line_ok ∧
    s'.urls.Sublist ((splitlines (decodeIgnore content)).map pyStrip) ∧
    (∀ u ∈ s'.urls, line_ok u = true) ∧
    s'.pdfs = s'.urls.filter (fun u => is_pdf_url u) ∧
    s'.videos = s'.urls.filter (fun u => !is_pdf_url u) := by
  unfold handle_document at h
  dsimp only at h
  rw [if_pos h0] at h
  by_cases hurls : parse_urls_from_text (decodeIgnore content) = []
  · rw [if_pos hurls] at h
    exact Option.noConfusion h
  · rw [if_neg hurls] at h
    injection h with h1
    subst h1
    refine ⟨rfl, ?_, ?_, rfl, rfl⟩
    · exact List.filter_sublist _
    · intro u hu
      exact (List.mem_filter.mp hu).2

/-- C2 amended, witness: ingesting the two-URL document into a fresh
session. -/
theorem parse_urls_amended_witness :
    demo_ingested.urls = ((splitlines (decodeIgnore demo_bytes)).map pyStrip).filter line_ok ∧
    demo_ingested.urls.Sublist ((splitlines (decodeIgnore demo_bytes)).map pyStrip) ∧
    (∀ u ∈ demo_ingested.urls, line_ok u = true) ∧
    demo_ingested.pdfs = demo_ingested.urls.filter (fun u => is_pdf_url u) ∧
    demo_ingested.videos = demo_ingested.urls.filter (fun u => !is_pdf_url u) :=
  parse_urls_amended { stage := .await_file } none demo_bytes demo_ingested rfl (by decide)

/-- C1 (code bug): bot.py logs "Final URL: ..." at INFO level before every
download, and that URL carries the session token as a query parameter —
running the ASK_TOKEN transition with token "tok123" writes a log line
containing "tok123", contradicting the stated property that no log output
contains the token. -/
theorem token_logged_in_final_url :
    (handle_text (some demo_media_session) (strOf "tok123") demo_oracle).logs =
      [demo_final_url_log] ∧
    containsStr (strOf "tok123") demo_final_url_log = true := by
  refine ⟨by decide, by decide⟩

/-- C4 counterexample: at ASK_TOKEN an *empty* text event is accepted —
the session's token is set to the empty string, the stage advances to
DOWNLOADING and the orchestrator is invoked — contradicting "empty text
is not accepted as a token". -/
theorem ask_token_accepts_empty_counterexample :
    (handle_text (some demo_media_session) [] demo_oracle).invoked =
      [{ demo_media_session with token := some [], stage := .downloading }] ∧
    (handle_text (some demo_media_session) [] demo_oracle).store = none := by
  refine ⟨by decide, by decide⟩

/-- C4 amended: at ASK_TOKEN *every* text event — empty included — is
accepted: the stripped text becomes the session token, the stage advances
to DOWNLOADING, and the download orchestrator is synchronously invoked
exactly once for that session. -/
theorem ask_token_amended (s : Session) (raw : Str) (o : Oracle)
    (hs : s.stage = .ask_token) :
    (handle_text (some s) raw o).invoked =
      [{ s with token := some (pyStrip raw), stage := .downloading }] ∧
    (handle_text (some s) raw o).store = none := by
  unfold handle_text
  dsimp only
  rw [hs]
  dsimp only
  rw [pyStrip_idem]
  cases htr : (handle_download_and_prepare
      { s with token := some (pyStrip raw), stage := .downloading } o).result with
  | failed e => exact ⟨rfl, rfl⟩
  | ok path =>
    dsimp only
    by_cases hu : o.upload_ok
    · rw [if_pos hu]; exact ⟨rfl, rfl⟩
    · rw [if_neg hu]; exact ⟨rfl, rfl⟩

/-- C4 amended, witness: the empty text at ASK_TOKEN. -/
theorem ask_token_amended_witness :
    (handle_text (some demo_media_session) [] demo_oracle).invoked =
      [{ demo_media_session with token := some (pyStrip []), stage := .downloading }] ∧
    (handle_text (some demo_media_session) [] demo_oracle).store = none :=
  ask_token_amended demo_media_session [] demo_oracle rfl

theorem fetch_files_nodup (s : Session) (o : Oracle)
    (hnd : (o.tmp_files.map Prod.fst).Nodup) :
    (handle_download_and_prepare s o).files.Nodup := by
  unfold handle_download_and_prepare
  dsimp only
  split_ifs with hp hh
  · exact List.nodup_singleton _
  · exact List.nodup_nil
  · cases o.ydl_error with
    | some e => exact hnd
    | none =>
      cases o.ydl_reported with
      | some p => exact hnd
      | none =>
        cases select_largest o.tmp_files with
        | some p => exact hnd
        | none => exact hnd

/-- C8: once ASK_TOKEN fires, the session is removed from the store on
every terminal outcome (download failure, upload success or upload
failure), and whenever the download produced a local artifact, that file
is no longer present after the handler finishes — whatever the upload
outcome (the working directory's distinct file names are the only
assumption). -/
theorem terminal_cleanup (s : Session) (raw : Str) (o : Oracle)
    (hs : s.stage = .ask_token) (hnd : (o.tmp_files.map Prod.fst).Nodup) :
    (handle_text (some s) raw o).store = none ∧
    ∀ p, (handle_download_and_prepare
        { s with token := some (pyStrip raw), stage := .downloading } o).result = .ok p →
      p ∉ (handle_text (some s) raw o).files := by
  unfold handle_text
  dsimp only
  rw [hs]
  dsimp only
  rw [pyStrip_idem]
  have hfnd := fetch_files_nodup
    { s with token := some (pyStrip raw), stage := .downloading } o hnd
  cases htr : (handle_download_and_prepare
      { s with token := some (pyStrip raw), stage := .downloading } o).result with
  | failed e =>
    refine ⟨rfl, ?_⟩
    intro p hp
    exact Fetched.noConfusion hp
  | ok path =>
    dsimp only
    by_cases hu : o.upload_ok
    · rw [if_pos hu]
      refine ⟨rfl, ?_⟩
      intro p hp
      injection hp with he
      subst he
      dsimp only
      exact hfnd.not_mem_erase
    · rw [if_neg hu]
      refine ⟨rfl, ?_⟩
      intro p hp
      injection hp with he
      subst he
      dsimp only
      exact hfnd.not_mem_erase

/-- C8 witness: the media session with token "tok123" and an
all-successful oracle. -/
theorem terminal_cleanup_witness :
    (handle_text (some demo_media_session) (strOf "tok123") demo_oracle).store = none ∧
    ∀ p, (handle_download_and_prepare
        { demo_media_session with token := some (pyStrip (strOf "tok123")), stage := .downloading }
        demo_oracle).result = .ok p →
      p ∉ (handle_text (some demo_media_session) (strOf "tok123") demo_oracle).files :=
  terminal_cleanup demo_media_session (strOf "tok123") demo_oracle rfl (by decide)

/-- C10: the declared file size of an uploaded document never affects
ingestion — two document events identical except for their declared size
(missing size included) produce the same resulting store (hence the same
parsed URL list and session state) and the same replies apart from the
leading acknowledgment text. -/
theorem file_size_noninterference (st : Option Session) (content : List Nat)
    (s1 s2 : Option Nat) :
    (handle_document st s1 content).1 = (handle_document st s2 content).1 ∧
    ((handle_document st s1 content).2).length = ((handle_document st s2 content).2).length ∧
    ((handle_document st s1 content).2).tail = ((handle_document st s2 content).2).tail := by
  unfold handle_document
  cases st with
  | none => exact ⟨rfl, rfl, rfl⟩
  | some state =>
    dsimp only
    by_cases hst : state.stage = .await_file
    · rw [if_pos hst, if_pos hst]
      by_cases hu : parse_urls_from_text (decodeIgnore content) = []
      · rw [if_pos hu, if_pos hu]
        exact ⟨rfl, rfl, rfl⟩
      · rw [if_neg hu, if_neg hu]
        exact ⟨rfl, rfl, rfl⟩
    · rw [if_neg hst, if_neg hst]
      exact ⟨rfl, rfl, rfl⟩

theorem hd_store_reject (s : Session) (sz : Option Nat) (content : List Nat)
    (hst : s.stage ≠ .await_file) :
    (handle_document (some s) sz content).1 = some s := by
  unfold handle_document
  dsimp only
  rw [if_neg hst]

theorem hd_store_nourls (s : Session) (sz : Option Nat) (content : List Nat)
    (hst : s.stage = .await_file)
    (hu : parse_urls_from_text (decodeIgnore content) = []) :
    (handle_document (some s) sz content).1 = none := by
  unfold handle_document
  dsimp only
  rw [if_pos hst, if_pos hu]

theorem hd_store_ok (s : Session) (sz : Option Nat) (content : List Nat)
    (hst : s.stage = .await_file)
    (hu : ¬ parse_urls_from_text (decodeIgnore content) = []) :
    (handle_document (some s) sz content).1 =
      some { s with stage := .choosing_link,
                    urls := parse_urls_from_text (decodeIgnore content),
                    pdfs := (parse_urls_from_text (decodeIgnore content)).filter (fun u => is_pdf_url u),
                    videos := (parse_urls_from_text (decodeIgnore content)).filter (fun u => !is_pdf_url u) } := by
  unfold handle_document
  dsimp only
  rw [if_pos hst, if_neg hu]

theorem ht_store_fallthrough (s : Session) (raw : Str) (o : Oracle)
    (hs : s.stage = .await_file ∨ s.stage = .downloading) :
    (handle_text (some s) raw o).store = some s := by
  unfold handle_text
  dsimp only
  cases hs with
  | inl h => rw [h]
  | inr h => rw [h]

theorem ht_store_choosing_invalid (s : Session) (raw : Str) (o : Oracle)
    (hs : s.stage = .choosing_link)
    (hbad : ∀ i, parsePyInt (pyStrip raw) = some i → i < 1 ∨ i > (s.urls.length : Int)) :
    (handle_text (some s) raw o).store = some s := by
  unfold handle_text
  dsimp only
  rw [hs]
  dsimp only
  cases hp : parsePyInt (pyStrip raw) with
  | none => rfl
  | some idx =>
    dsimp only
    rw [if_pos (hbad idx hp)]

theorem ht_store_choosing_valid (s : Session) (raw : Str) (o : Oracle) (idx : Int)
    (hs : s.stage = .choosing_link)
    (hp : parsePyInt (pyStrip raw) = some idx)
    (hok : ¬(idx < 1 ∨ idx > (s.urls.length : Int))) :
    (handle_text (some s) raw o).store =
      some { s with chosen_index := some idx,
                    chosen_url := some ((s.urls.get? (idx - 1).toNat).getD []),
                    stage := .ask_batch } := by
  unfold handle_text
  dsimp only
  rw [hs]
  dsimp only
  rw [hp]
  dsimp only
  rw [if_neg hok]

theorem ht_store_ask_batch (s : Session) (raw : Str) (o : Oracle)
    (hs : s.stage = .ask_batch) :
    (handle_text (some s) raw o).store =
      some { s with batch := some (sanitize_batch (pyStrip raw)), stage := .ask_quality } := by
  unfold handle_text
  dsimp only
  rw [hs]

theorem ht_store_ask_quality_ok (s : Session) (raw : Str) (o : Oracle)
    (hs : s.stage = .ask_quality)
    (hq : pyStrip raw = strOf "480" ∨ pyStrip raw = strOf "720") :
    (handle_text (some s) raw o).store =
      some { s with quality := some (pyStrip raw), stage := .ask_token } := by
  unfold handle_text
  dsimp only
  rw [hs]
  dsimp only
  rw [if_pos hq]

theorem ht_store_ask_quality_bad (s : Session) (raw : Str) (o : Oracle)
    (hs : s.stage = .ask_quality)
    (hq : ¬(pyStrip raw = strOf "480" ∨ pyStrip raw = strOf "720")) :
    (handle_text (some s) raw o).store = some s := by
  unfold handle_text
  dsimp only
  rw [hs]
  dsimp only
  rw [if_neg hq]

theorem ask_token_store_none (s : Session) (raw : Str) (o : Oracle)
    (hs : s.stage = .ask_token) :
    (handle_text (some s) raw o).store = none := by
  unfold handle_text
  dsimp only
  rw [hs]
  dsimp only
  cases htr : (handle_download_and_prepare
      { s with token := some (pyStrip (pyStrip raw)), stage := .downloading } o).result with
  | failed e => rfl
  | ok path =>
    dsimp only
    by_cases hu : o.upload_ok
    · rw [if_pos hu]
    · rw [if_neg hu]

theorem step_preserves_inv (st : Option Session) (e : Event) (o : Oracle)
    (h : store_inv st) : store_inv (step st e o).store := by
  cases e with
  | cmdStart => exact h
  | cmdPw =>
    intro s hs
    injection hs with hs1
    subst hs1
    exact ⟨fun _ => ⟨rfl, rfl⟩, fun u hu => Option.noConfusion hu⟩
  | document sz content =>
    cases st with
    | none =>
      intro s' hs'
      exact Option.noConfusion hs'
    | some s0 =>
      by_cases hst : s0.stage = .await_file
      · by_cases hu : parse_urls_from_text (decodeIgnore content) = []
        · intro s' hs'
          have heq : (step (some s0) (.document sz content) o).store = none :=
            hd_store_nourls s0 sz content hst hu
          rw [heq] at hs'
          exact Option.noConfusion hs'
        · intro s' hs'
          have heq := hd_store_ok s0 sz content hst hu
          have hs2 : (step (some s0) (.document sz content) o).store =
              (handle_document (some s0) sz content).1 := rfl
          rw [hs2, heq] at hs'
          injection hs' with hs1
          subst hs1
          refine ⟨fun habs => Stage.noConfusion habs, fun u hu2 => ?_⟩
          dsimp only at hu2
          rw [((h s0 rfl).1 hst).1] at hu2
          exact Option.noConfusion hu2
      · intro s' hs'
        have hs2 : (step (some s0) (.document sz content) o).store =
            (handle_document (some s0) sz content).1 := rfl
        rw [hs2, hd_store_reject s0 sz content hst] at hs'
        injection hs' with hs1
        subst hs1
        exact h s0 rfl
  | text raw =>
    cases st with
    | none =>
      intro s' hs'
      exact Option.noConfusion hs'
    | some s0 =>
      have hs2 : (step (some s0) (.text raw) o).store = (handle_text (some s0) raw o).store := rfl
      cases hstage : s0.stage with
      | await_file =>
        intro s' hs'
        rw [hs2, ht_store_fallthrough s0 raw o (Or.inl hstage)] at hs'
        injection hs' with hs1
        subst hs1
        exact h s0 rfl
      | downloading =>
        intro s' hs'
        rw [hs2, ht_store_fallthrough s0 raw o (Or.inr hstage)] at hs'
        injection hs' with hs1
        subst hs1
        exact h s0 rfl
      | choosing_link =>
        cases hp : parsePyInt (pyStrip raw) with
        | none =>
          intro s' hs'
          rw [hs2, ht_store_choosing_invalid s0 raw o hstage
            (fun i hi => by rw [hp] at hi; exact Option.noConfusion hi)] at hs'
          injection hs' with hs1
          subst hs1
          exact h s0 rfl
        | some idx =>
          by_cases hrange : idx < 1 ∨ idx > (s0.urls.length : Int)
          · intro s' hs'
            rw [hs2, ht_store_choosing_invalid s0 raw o hstage
              (fun i hi => by rw [hp] at hi; injection hi with he; subst he; exact hrange)] at hs'
            injection hs' with hs1
            subst hs1
            exact h s0 rfl
          · intro s' hs'
            rw [hs2, ht_store_choosing_valid s0 raw o idx hstage hp hrange] at hs'
            injection hs' with hs1
            subst hs1
            push_neg at hrange
            exact ⟨fun habs => Stage.noConfusion habs,
              fun u hu2 => ⟨idx, rfl, hrange.1, hrange.2⟩⟩
      | ask_batch =>
        intro s' hs'
        rw [hs2, ht_store_ask_batch s0 raw o hstage] at hs'
        injection hs' with hs1
        subst hs1
        refine ⟨fun habs => Stage.noConfusion habs, fun u hu2 => ?_⟩
        dsimp only at hu2 ⊢
        exact (h s0 rfl).2 u hu2
      | ask_quality =>
        by_cases hq : pyStrip raw = strOf "480" ∨ pyStrip raw = strOf "720"
        · intro s' hs'
          rw [hs2, ht_store_ask_quality_ok s0 raw o hstage hq] at hs'
          injection hs' with hs1
          subst hs1
          refine ⟨fun habs => Stage.noConfusion habs, fun u hu2 => ?_⟩
          dsimp only at hu2 ⊢
          exact (h s0 rfl).2 u hu2
        · intro s' hs'
          rw [hs2, ht_store_ask_quality_bad s0 raw o hstage hq] at hs'
          injection hs' with hs1
          subst hs1
          exact h s0 rfl
      | ask_token =>
        intro s' hs'
        rw [hs2, ask_token_store_none s0 raw o hstage] at hs'
        exact Option.noConfusion hs'

theorem reachable_store_inv (st : Option Session) (hreach : Reachable st) : store_inv st := by
  induction hreach with
  | init => intro s2 hs2; exact Option.noConfusion hs2
  | next st2 e o2 _ ih => exact step_preserves_inv st2 e o2 ih

/-- C7: in every reachable store, a session whose URL has been chosen
carries a chosen index with 1 ≤ chosenIndex ≤ len(urls); and at
CHOOSING_LINK any text whose parse is non-integer or out of range leaves
the whole session — chosenIndex, chosenUrl and stage included —
unchanged. -/
theorem chosen_index_invariant :
    (∀ (st : Option Session) (s : Session) (u : Str),
      Reachable st → st = some s → s.chosen_url = some u →
      ∃ i, s.chosen_index = some i ∧ 1 ≤ i ∧ i ≤ (s.urls.length : Int)) ∧
    (∀ (s : Session) (raw : Str) (o : Oracle),
      s.stage = .choosing_link →
      (∀ i, parsePyInt (pyStrip raw) = some i → i < 1 ∨ i > (s.urls.length : Int)) →
      (handle_text (some s) raw o).store = some s) := by
  constructor
  · intro st s u hreach hst hcu
    exact ((reachable_store_inv st hreach) s hst).2 u hcu
  · intro s raw o hs hbad
    exact ht_store_choosing_invalid s raw o hs hbad

/-- C7 witness: the store reached by /pw → document → reply "1" holds a
session with chosen index 1 of 2 URLs, and the out-of-range reply "99"
leaves that session unchanged. -/
theorem chosen_index_invariant_witness :
    (∃ i, demo_chosen_session.chosen_index = some i ∧ 1 ≤ i ∧
      i ≤ (demo_chosen_session.urls.length : Int)) ∧
    (handle_text (some demo_ingested) (strOf "99") demo_oracle).store =
      some demo_ingested := by
  constructor
  · exact chosen_index_invariant.1
      ((step (step (step none .cmdPw demo_oracle).store
          (.document none demo_bytes) demo_oracle).store
        (.text (strOf "1")) demo_oracle).store)
      demo_chosen_session (strOf "https://x.com/a.pdf")
      (Reachable.next _ _ _ (Reachable.next _ _ _ (Reachable.next _ _ _ Reachable.init)))
      (by decide) rfl
  · refine chosen_index_invariant.2 demo_ingested (strOf "99") demo_oracle rfl ?_
    intro i hi
    have h99 : parsePyInt (pyStrip (strOf "99")) = some 99 := by decide
    rw [h99] at hi
    injection hi with he
    subst he
    right
    decide
